import Mathlib

/-!
Shallow embedding of the rateLimiter repository (Go) in Lean 4.

The embedding covers:
* the Redis-backed store (`infra/db/redis/redis.go`): a single keyspace
  mapping string keys to values with optional absolute expiry times, with the
  four operations `Increment` (the Lua script INCR + first-time EXPIRE),
  `IsBlocked`, `Block` and `Reset`;
* the rate-decision engine (`internal/rateLimiter/rateLimiter.go`):
  `NewRateLimiter`, `GetConfig` and `Allow`;
* the configuration loader (`cmd/server/config/rateLimiterConfig.go`):
  `LoadConfigRateLimiter` over a modelled environment, including the
  `strconv.Atoi` parse and the panic on a failed `.env` load.

Time is modelled as a natural number of seconds (the code only ever uses
whole-second durations: the fixed one-second window and the configured block
durations).  Store failures (transport errors) are modelled by a `Faults`
record injected into each store call; `Go`'s `error` channel is an
`Option String` / `Except String` carrying the wrapped message text.
Machine-integer overflow is irrelevant to every claim (counters grow by one
per request within a one-second window), so Go's `int`/`int64` are modelled
as `Int`.
-/

namespace RateLimiterProof

/-- A value stored at a Redis key: an integer counter or a plain string. -/
inductive RVal where
  | int (n : Int)
  | str (s : String)
deriving DecidableEq, Repr

/-- A Redis entry: a value plus an optional absolute expiry time in seconds;
`none` means the key never expires. -/
structure Entry where
  val : RVal
  expAt : Option Nat
deriving DecidableEq, Repr

/-- The shared Redis keyspace: one map from string keys to entries. -/
structure RedisState where
  kv : String → Option Entry

/-- The empty keyspace (a fresh Redis instance). -/
def emptyState : RedisState := ⟨fun _ => none⟩

/-- Write (or delete, with `none`) a single key. -/
def setKV (st : RedisState) (k : String) (v : Option Entry) : RedisState :=
  ⟨fun q => if q = k then v else st.kv q⟩

/-- The value of a key as visible at time `now`: expired keys read as absent
(Redis removes a key once its expiry time is reached). -/
def liveVal (st : RedisState) (now : Nat) (k : String) : Option RVal :=
  match st.kv k with
  | none => none
  | some e =>
    match e.expAt with
    | none => some e.val
    | some tt => if now < tt then some e.val else none

/-- The stored expiry of a key (ignoring whether it already lapsed). -/
def liveExp (st : RedisState) (k : String) : Option Nat :=
  match st.kv k with
  | none => none
  | some e => e.expAt

/-- Outcome of the Lua script of `RedisStore.Increment`: the post-increment
count together with the entry written back at the key.  `INCR` on an absent
(or expired) key creates it at 1; the script arms the window expiry exactly
when the new count is 1, otherwise the existing expiry is kept.  `INCR` on a
key holding a non-integer string is a Redis error, which `Increment` wraps. -/
def incrResult (st : RedisState) (now : Nat) (k : String) (window : Nat) :
    Except String (Int × Entry) :=
  match liveVal st now k with
  | none => .ok (1, ⟨.int 1, some (now + window)⟩)
  | some (.int n) =>
      .ok (n + 1, ⟨.int (n + 1), if n + 1 = 1 then some (now + window) else liveExp st k⟩)
  | some (.str _) =>
      .error "erro ao executar script Lua INCR com EXPIRE: value is not an integer or out of range"

/-- `RedisStore.Increment`: run the atomic Lua script and write the key. -/
def rsIncrement (st : RedisState) (now : Nat) (k : String) (window : Nat) :
    Except String (Int × RedisState) :=
  match incrResult st now k window with
  | .error e => .error e
  | .ok (c, e) => .ok (c, setKV st k (some e))

/-- `RedisStore.IsBlocked`: GET the key; absent (or expired) means not
blocked, otherwise blocked iff the stored value is the string "blocked". -/
def rsIsBlocked (st : RedisState) (now : Nat) (k : String) : Bool :=
  decide (liveVal st now k = some (.str "blocked"))

/-- `RedisStore.Block`: SET key "blocked" with the class block duration.
go-redis only sends an EX option for a positive duration; with a
non-positive duration the SET carries no expiry. -/
def rsBlock (st : RedisState) (now : Nat) (k : String) (dur : Int) : RedisState :=
  setKV st k (some ⟨.str "blocked", if 0 < dur then some (now + dur.toNat) else none⟩)

/-- `RedisStore.Reset`: DEL the key (never an error when the key is absent). -/
def rsReset (st : RedisState) (k : String) : RedisState :=
  setKV st k none

/-- Transport-failure injection: `some cause` makes the corresponding store
call fail with that cause, `none` lets it run against the modelled Redis. -/
structure Faults where
  isBlockedFail : Option String
  incrementFail : Option String
  blockFail : Option String
  resetFail : Option String
deriving DecidableEq, Repr

/-- No store call fails. -/
def noFaults : Faults := ⟨none, none, none, none⟩

/-- The store's `IsBlocked` as seen by the engine, with fault injection. -/
def stIsBlocked (f : Faults) (st : RedisState) (now : Nat) (k : String) :
    Except String Bool :=
  match f.isBlockedFail with
  | some c => .error c
  | none => .ok (rsIsBlocked st now k)

/-- The store's `Increment` as seen by the engine, with fault injection. -/
def stIncrement (f : Faults) (st : RedisState) (now : Nat) (k : String) (window : Nat) :
    Except String (Int × RedisState) :=
  match f.incrementFail with
  | some c => .error c
  | none => rsIncrement st now k window

/-- The store's `Block` as seen by the engine, with fault injection. -/
def stBlock (f : Faults) (st : RedisState) (now : Nat) (k : String) (dur : Int) :
    Except String RedisState :=
  match f.blockFail with
  | some c => .error c
  | none => .ok (rsBlock st now k dur)

/-- The store's `Reset` as called by the engine, which discards its error
(`_ = rl.store.Reset(ctx, key)`): on a transport failure the DEL does not
apply and the state is unchanged. -/
def stResetIgnored (f : Faults) (st : RedisState) (k : String) : RedisState :=
  match f.resetFail with
  | some _ => st
  | none => rsReset st k

/-- `config.LimiterConfig` (cmd/server/config/rateLimiterConfig.go). -/
structure LimiterConfig where
  MaxRequestsPerIP : Int
  MaxRequestsPerToken : Int
  BlockDurationIPSeconds : Int
  BlockDurationTokenSeconds : Int
  TokenHeaderName : String
deriving DecidableEq, Repr

/-- The engine struct (its store is the explicit `RedisState` here). -/
structure RateLimiter where
  limiterConfig : LimiterConfig
deriving DecidableEq, Repr

/-- `NewRateLimiter` (internal/rateLimiter/rateLimiter.go). -/
def NewRateLimiter (cfg : LimiterConfig) : RateLimiter := ⟨cfg⟩

/-- The per-class request limit selected by `Allow`. -/
def maxFor (rl : RateLimiter) (isToken : Bool) : Int :=
  if isToken then rl.limiterConfig.MaxRequestsPerToken else rl.limiterConfig.MaxRequestsPerIP

/-- The per-class block duration (seconds) selected by `Allow`. -/
def durFor (rl : RateLimiter) (isToken : Bool) : Int :=
  if isToken then rl.limiterConfig.BlockDurationTokenSeconds
  else rl.limiterConfig.BlockDurationIPSeconds

/-- The window-counter key: `keyPrefix + identifier` with `keyPrefix` being
"token_" for the token class and "ip_" for the IP class. -/
def counterKey (isToken : Bool) (identifier : String) : String :=
  (if isToken then "token_" else "ip_") ++ identifier

/-- The block-marker key: `"blocked_" + key`. -/
def blockedKeyOf (isToken : Bool) (identifier : String) : String :=
  "blocked_" ++ counterKey isToken identifier

/-- `RateLimiter.Allow` (internal/rateLimiter/rateLimiter.go): check the
block marker, increment the one-second window counter, and on exceeding the
class limit set the block marker, best-effort reset the counter and deny.
Returns the `(bool, error)` pair together with the store state after the
call. -/
def Allow (rl : RateLimiter) (f : Faults) (st : RedisState) (now : Nat)
    (identifier : String) (isToken : Bool) :
    (Bool × Option String) × RedisState :=
  let maxRequests := maxFor rl isToken
  let blockDuration := durFor rl isToken
  let key := counterKey isToken identifier
  let blockedKey := blockedKeyOf isToken identifier
  match stIsBlocked f st now blockedKey with
  | .error e => ((false, some ("erro ao verificar se está bloqueado: " ++ e)), st)
  | .ok isBlocked =>
    if isBlocked then
      ((false, none), st)
    else
      match stIncrement f st now key 1 with
      | .error e => ((false, some ("erro ao incrementar contador: " ++ e)), st)
      | .ok (count, st1) =>
        if maxRequests < count then
          match stBlock f st1 now blockedKey blockDuration with
          | .error e => ((false, some ("erro ao bloquear: " ++ e)), st1)
          | .ok st2 => ((false, none), stResetIgnored f st2 key)
        else
          ((true, none), st1)

/-- One request event: identity pair plus the second at which it arrives. -/
structure Req where
  identifier : String
  isToken : Bool
  now : Nat
deriving DecidableEq, Repr

/-- Run a sequence of fault-free `Allow` calls, collecting each request with
its `(bool, error)` result. -/
def runAllow (rl : RateLimiter) : RedisState → List Req →
    List (Req × (Bool × Option String)) × RedisState
  | st, [] => ([], st)
  | st, r :: rs =>
    let p := Allow rl noFaults st r.now r.identifier r.isToken
    let q := runAllow rl p.2 rs
    ((r, p.1) :: q.1, q.2)

/-- The process environment, as read by `os.Getenv` (unset reads as ""). -/
def GoEnv : Type := String → String

/-- An environment variable with the loader's fallback default. -/
def envOr (env : GoEnv) (k d : String) : String :=
  if env k = "" then d else env k

/-- One decimal digit of `strconv.Atoi`. -/
def digitVal (c : Char) : Option Nat :=
  if '0' ≤ c ∧ c ≤ '9' then some (c.toNat - '0'.toNat) else none

/-- Accumulate decimal digits; any non-digit character fails the parse. -/
def digitsValAux : List Char → Nat → Option Nat
  | [], acc => some acc
  | c :: cs, acc =>
    match digitVal c with
    | none => none
    | some d => digitsValAux cs (acc * 10 + d)

/-- A non-empty all-digit run parsed as a natural number. -/
def digitsVal : List Char → Option Nat
  | [] => none
  | l => digitsValAux l 0

/-- `strconv.Atoi`: an optional sign followed by at least one digit (the
int64 range check is irrelevant to every configuration the claims touch). -/
def atoi (s : String) : Option Int :=
  match s.data with
  | '+' :: rest => (digitsVal rest).map (fun n => (n : Int))
  | '-' :: rest => (digitsVal rest).map (fun n => -(n : Int))
  | l => (digitsVal l).map (fun n => (n : Int))

/-- A Go call that can return normally, return an error, or panic. -/
inductive GoResult (α : Type) where
  | ok (a : α)
  | err (e : String)
  | panicked (msg : String)
deriving DecidableEq, Repr

/-- `config.LoadConfigRateLimiter`: panics when the `.env` file cannot be
loaded (`dotenvOk = false`), errors when a set variable does not parse as an
integer, and otherwise builds the configuration with defaults 5, 10, 300,
300 and header name "API_KEY". -/
def LoadConfigRateLimiter (dotenvOk : Bool) (env : GoEnv) : GoResult LimiterConfig :=
  if dotenvOk = false then .panicked "Erro ao ler o arquivo de configurações"
  else
    match atoi (envOr env "MAX_REQUESTS_PER_IP" "5") with
    | none => .err "erro ao converter MAX_REQUESTS_PER_IP"
    | some mip =>
      match atoi (envOr env "MAX_REQUESTS_PER_TOKEN" "10") with
      | none => .err "erro ao converter MAX_REQUESTS_PER_TOKEN"
      | some mtok =>
        match atoi (envOr env "BLOCK_DURATION_IP_SECONDS" "300") with
        | none => .err "erro ao converter BLOCK_DURATION_IP_SECONDS"
        | some bip =>
          match atoi (envOr env "BLOCK_DURATION_TOKEN_SECONDS" "300") with
          | none => .err "erro ao converter BLOCK_DURATION_TOKEN_SECONDS"
          | some btok =>
            .ok ⟨mip, mtok, bip, btok, envOr env "TOKEN_HEADER_NAME" "API_KEY"⟩

/-- `RateLimiter.GetConfig` (internal/rateLimiter/rateLimiter.go): calls
`config.LoadConfigRateLimiter()` afresh — ignoring the stored
`rl.limiterConfig` — and panics when that returns an error. -/
def GetConfig (dotenvOk : Bool) (env : GoEnv) (rl : RateLimiter) : GoResult LimiterConfig :=
  match rl, LoadConfigRateLimiter dotenvOk env with
  | _, .ok c => .ok c
  | _, .err e => .panicked ("Erro ao ler as configurações do rate limiter: " ++ e)
  | _, .panicked m => .panicked m


theorem setKV_self (st : RedisState) (k : String) (v : Option Entry) :
    (setKV st k v).kv k = v := by
  simp [setKV]

theorem setKV_other (st : RedisState) (k q : String) (v : Option Entry) (h : q ≠ k) :
    (setKV st k v).kv q = st.kv q := by
  simp [setKV, h]

theorem counterKey_eq_iff (t u : Bool) (a b : String) :
    counterKey t a = counterKey u b ↔ (t = u ∧ a = b) := by
  constructor
  · intro h
    cases t <;> cases u <;>
      simp only [counterKey, if_true, if_false, Bool.false_eq_true, Bool.true_eq_false] at h ⊢
    · have h2 := congrArg String.data h
      simp [String.data_append] at h2
      exact ⟨trivial, String.ext h2⟩
    · have h2 := congrArg String.data h
      simp [String.data_append] at h2
    · have h2 := congrArg String.data h
      simp [String.data_append] at h2
    · have h2 := congrArg String.data h
      simp [String.data_append] at h2
      exact ⟨trivial, String.ext h2⟩
  · intro h
    rw [h.1, h.2]

theorem blockedKeyOf_eq_iff (t u : Bool) (a b : String) :
    blockedKeyOf t a = blockedKeyOf u b ↔ (t = u ∧ a = b) := by
  unfold blockedKeyOf
  constructor
  · intro h
    have h2 := congrArg String.data h
    simp [String.data_append] at h2
    exact (counterKey_eq_iff t u a b).mp (String.ext h2)
  · intro h
    rw [(counterKey_eq_iff t u a b).mpr h]

theorem counterKey_ne_blockedKeyOf (t u : Bool) (a b : String) :
    counterKey t a ≠ blockedKeyOf u b := by
  intro h
  have h2 := congrArg String.data h
  cases t <;>
    simp [counterKey, blockedKeyOf, String.data_append] at h2


theorem incrResult_congr (st1 st2 : RedisState) (now : Nat) (k : String) (w : Nat)
    (h : st1.kv k = st2.kv k) :
    incrResult st1 now k w = incrResult st2 now k w := by
  simp only [incrResult, liveVal, liveExp, h]

theorem rsIncrement_frame (st st' : RedisState) (now : Nat) (k q : String) (w : Nat)
    (c : Int) (h : rsIncrement st now k w = .ok (c, st')) (hq : q ≠ k) :
    st'.kv q = st.kv q := by
  unfold rsIncrement at h
  cases hi : incrResult st now k w with
  | error e => rw [hi] at h; exact absurd h (by simp)
  | ok p =>
    rw [hi] at h
    simp only [Except.ok.injEq, Prod.mk.injEq] at h
    rw [← h.2]
    exact setKV_other st k q _ hq

theorem allow_frame (rl : RateLimiter) (f : Faults) (st : RedisState) (now : Nat)
    (a : String) (t : Bool) (q : String)
    (hq1 : q ≠ counterKey t a) (hq2 : q ≠ blockedKeyOf t a) :
    ((Allow rl f st now a t).2).kv q = st.kv q := by
  simp only [Allow]
  cases hB : stIsBlocked f st now (blockedKeyOf t a) with
  | error e => rfl
  | ok b =>
    by_cases hb : b
    · simp [hb]
    · simp only [hb, if_false, Bool.false_eq_true]
      cases hI : stIncrement f st now (counterKey t a) 1 with
      | error e => rfl
      | ok p =>
        obtain ⟨c, st1⟩ := p
        have hst1 : st1.kv q = st.kv q := by
          unfold stIncrement at hI
          cases hf : f.incrementFail with
          | some cc => rw [hf] at hI; exact absurd hI (by simp)
          | none =>
            rw [hf] at hI
            exact rsIncrement_frame st st1 now (counterKey t a) q 1 c hI hq1
        by_cases hover : maxFor rl t < c
        · simp only [hover, if_true]
          cases hBl : stBlock f st1 now (blockedKeyOf t a) (durFor rl t) with
          | error e => exact hst1
          | ok st2 =>
            have hst2 : st2.kv q = st.kv q := by
              unfold stBlock at hBl
              cases hf : f.blockFail with
              | some cc => rw [hf] at hBl; exact absurd hBl (by simp)
              | none =>
                rw [hf] at hBl
                simp only [Except.ok.injEq] at hBl
                rw [← hBl, rsBlock, setKV_other _ _ _ _ hq2]
                exact hst1
            show (stResetIgnored f st2 (counterKey t a)).kv q = st.kv q
            unfold stResetIgnored
            cases f.resetFail with
            | some cc => exact hst2
            | none => rw [rsReset, setKV_other _ _ _ _ hq1]; exact hst2
        · simp only [hover, if_false]
          exact hst1

theorem liveVal_congr (st1 st2 : RedisState) (now : Nat) (k : String)
    (h : st1.kv k = st2.kv k) : liveVal st1 now k = liveVal st2 now k := by
  simp only [liveVal, h]

theorem allow_agree (rl : RateLimiter) (st1 st2 : RedisState) (now : Nat)
    (a : String) (t : Bool)
    (hc : st1.kv (counterKey t a) = st2.kv (counterKey t a))
    (hb : st1.kv (blockedKeyOf t a) = st2.kv (blockedKeyOf t a)) :
    (Allow rl noFaults st1 now a t).1 = (Allow rl noFaults st2 now a t).1 ∧
    ((Allow rl noFaults st1 now a t).2).kv (counterKey t a) =
      ((Allow rl noFaults st2 now a t).2).kv (counterKey t a) ∧
    ((Allow rl noFaults st1 now a t).2).kv (blockedKeyOf t a) =
      ((Allow rl noFaults st2 now a t).2).kv (blockedKeyOf t a) := by
  have hkne : blockedKeyOf t a ≠ counterKey t a :=
    fun h => counterKey_ne_blockedKeyOf t t a a h.symm
  have hIB : rsIsBlocked st1 now (blockedKeyOf t a) = rsIsBlocked st2 now (blockedKeyOf t a) := by
    unfold rsIsBlocked
    rw [liveVal_congr st1 st2 now _ hb]
  have hIR : incrResult st1 now (counterKey t a) 1 = incrResult st2 now (counterKey t a) 1 :=
    incrResult_congr st1 st2 now _ 1 hc
  simp only [Allow, stIsBlocked, stIncrement, stBlock, stResetIgnored, noFaults, rsIncrement]
  rw [hIB, hIR]
  by_cases hbb : rsIsBlocked st2 now (blockedKeyOf t a)
  · simp [hbb, hc, hb]
  · simp only [hbb, Bool.false_eq_true, if_false]
    cases hI2 : incrResult st2 now (counterKey t a) 1 with
    | error e => exact ⟨rfl, hc, hb⟩
    | ok p =>
      obtain ⟨c, en⟩ := p
      by_cases hover : maxFor rl t < c
      · simp only [hover, if_true]
        refine ⟨trivial, ?_, ?_⟩
        · rw [rsReset, setKV_self, rsReset, setKV_self]
        · rw [rsReset, setKV_other _ _ _ _ hkne, rsBlock, setKV_self,
            rsReset, setKV_other _ _ _ _ hkne, rsBlock, setKV_self]
      · simp only [hover, if_false]
        refine ⟨trivial, ?_, ?_⟩
        · rw [setKV_self, setKV_self]
        · rw [setKV_other _ _ _ _ hkne, setKV_other _ _ _ _ hkne]
          exact hb

theorem liveVal_none (st : RedisState) (now : Nat) (k : String)
    (h : st.kv k = none) : liveVal st now k = none := by
  simp [liveVal, h]

theorem allow_step_fresh (rl : RateLimiter) (st : RedisState) (now : Nat)
    (a : String) (t : Bool)
    (hck : st.kv (counterKey t a) = none)
    (hbk : st.kv (blockedKeyOf t a) = none)
    (hmax : 1 ≤ maxFor rl t) :
    Allow rl noFaults st now a t =
      ((true, none), setKV st (counterKey t a) (some ⟨.int 1, some (now + 1)⟩)) := by
  simp [Allow, stIsBlocked, stIncrement, stBlock, stResetIgnored, noFaults, rsIsBlocked,
    rsIncrement, incrResult, liveVal_none _ _ _ hck, liveVal_none _ _ _ hbk, not_lt.mpr hmax]

theorem allow_step_mid (rl : RateLimiter) (st : RedisState) (now : Nat)
    (a : String) (t : Bool) (n : Int)
    (hck : st.kv (counterKey t a) = some ⟨.int n, some (now + 1)⟩)
    (hbk : st.kv (blockedKeyOf t a) = none)
    (hn : 1 ≤ n)
    (hmax : n + 1 ≤ maxFor rl t) :
    Allow rl noFaults st now a t =
      ((true, none), setKV st (counterKey t a) (some ⟨.int (n + 1), some (now + 1)⟩)) := by
  have hlv : liveVal st now (counterKey t a) = some (.int n) := by
    simp [liveVal, hck]
  have hle : liveExp st (counterKey t a) = some (now + 1) := by
    simp [liveExp, hck]
  have hne : ¬ (n + 1 = 1) := by omega
  simp [Allow, stIsBlocked, stIncrement, stBlock, stResetIgnored, noFaults, rsIsBlocked,
    rsIncrement, incrResult, hlv, hle, liveVal_none _ _ _ hbk, hne, not_lt.mpr hmax]

theorem allow_step_over (rl : RateLimiter) (st : RedisState) (now : Nat)
    (a : String) (t : Bool) (n : Int)
    (hck : st.kv (counterKey t a) = some ⟨.int n, some (now + 1)⟩)
    (hbk : st.kv (blockedKeyOf t a) = none)
    (hn : 1 ≤ n)
    (hmax : maxFor rl t < n + 1) :
    Allow rl noFaults st now a t =
      ((false, none),
        setKV (rsBlock (setKV st (counterKey t a) (some ⟨.int (n + 1), some (now + 1)⟩))
            now (blockedKeyOf t a) (durFor rl t))
          (counterKey t a) none) := by
  have hlv : liveVal st now (counterKey t a) = some (.int n) := by
    simp [liveVal, hck]
  have hle : liveExp st (counterKey t a) = some (now + 1) := by
    simp [liveExp, hck]
  have hne : ¬ (n + 1 = 1) := by omega
  simp [Allow, stIsBlocked, stIncrement, stBlock, stResetIgnored, noFaults, rsIsBlocked,
    rsIncrement, incrResult, rsReset, hlv, hle, liveVal_none _ _ _ hbk, hne, hmax]

theorem runAllow_replicate (rl : RateLimiter) (now : Nat) (a : String) (t : Bool) :
    ∀ (m k : Nat) (st : RedisState),
      st.kv (counterKey t a) = some ⟨.int (k : Int), some (now + 1)⟩ →
      st.kv (blockedKeyOf t a) = none →
      1 ≤ k → ((k + m : Nat) : Int) ≤ maxFor rl t →
      (runAllow rl st (List.replicate m ⟨a, t, now⟩)).1 =
        List.replicate m (⟨a, t, now⟩, (true, none)) ∧
      ((runAllow rl st (List.replicate m ⟨a, t, now⟩)).2).kv (counterKey t a) =
        some ⟨.int ((k + m : Nat) : Int), some (now + 1)⟩ ∧
      ∀ q, q ≠ counterKey t a →
        ((runAllow rl st (List.replicate m ⟨a, t, now⟩)).2).kv q = st.kv q := by
  intro m
  induction m with
  | zero =>
    intro k st hck hbk hk hmax
    refine ⟨rfl, ?_, fun q _ => rfl⟩
    simpa [runAllow] using hck
  | succ m ih =>
    intro k st hck hbk hk hmax
    have hkc : (1 : Int) ≤ (k : Int) := by exact_mod_cast hk
    have hm1 : (k : Int) + 1 ≤ maxFor rl t := by
      push_cast at hmax
      omega
    have hstep := allow_step_mid rl st now a t (k : Int) hck hbk hkc hm1
    have hbkck : blockedKeyOf t a ≠ counterKey t a :=
      fun h => counterKey_ne_blockedKeyOf t t a a h.symm
    have hcast : ((k : Int) + 1) = (((k + 1 : Nat)) : Int) := by push_cast; ring
    have hck' : (setKV st (counterKey t a)
        (some ⟨.int ((k : Int) + 1), some (now + 1)⟩)).kv (counterKey t a) =
        some ⟨.int ((k + 1 : Nat) : Int), some (now + 1)⟩ := by
      rw [setKV_self, hcast]
    have hbk' : (setKV st (counterKey t a)
        (some ⟨.int ((k : Int) + 1), some (now + 1)⟩)).kv (blockedKeyOf t a) = none := by
      rw [setKV_other _ _ _ _ hbkck]
      exact hbk
    have hmax' : (((k + 1) + m : Nat) : Int) ≤ maxFor rl t := by
      push_cast at hmax ⊢
      omega
    obtain ⟨ih1, ih2, ih3⟩ := ih (k + 1) _ hck' hbk' (by omega) hmax'
    rw [List.replicate_succ]
    simp only [runAllow]
    rw [hstep]
    refine ⟨?_, ?_, ?_⟩
    · simp only [List.replicate_succ]
      rw [← ih1]
    · rw [show ((k + (m + 1) : Nat) : Int) = (((k + 1) + m : Nat) : Int) by push_cast; ring]
      exact ih2
    · intro q hq
      rw [ih3 q hq, setKV_other _ _ _ _ hq]

/-- Claim C1: for every class and identifier, starting from a store state with
no counter and no block marker for that identity and with the class limit
N at least 1, each of the first N successive `Allow` calls within one
one-second window returns `(true, nil)`, and the N+1-th call returns
`(false, nil)`: the limit check is strict `count > max`, so exactly N
requests are admitted. -/
theorem c1_first_n_allowed_then_denied
    (rl : RateLimiter) (st0 : RedisState) (now : Nat) (a : String) (t : Bool) (n : Nat)
    (hn : maxFor rl t = (n : Int)) (h1 : 1 ≤ n)
    (hc : st0.kv (counterKey t a) = none)
    (hb : st0.kv (blockedKeyOf t a) = none) :
    (runAllow rl st0 (List.replicate n ⟨a, t, now⟩)).1 =
      List.replicate n (⟨a, t, now⟩, (true, none)) ∧
    (Allow rl noFaults (runAllow rl st0 (List.replicate n ⟨a, t, now⟩)).2 now a t).1 =
      (false, none) := by
  obtain ⟨m, rfl⟩ : ∃ m, n = m + 1 := ⟨n - 1, by omega⟩
  have hbkck : blockedKeyOf t a ≠ counterKey t a :=
    fun h => counterKey_ne_blockedKeyOf t t a a h.symm
  have hmax1 : 1 ≤ maxFor rl t := by rw [hn]; exact_mod_cast h1
  have hstep := allow_step_fresh rl st0 now a t hc hb hmax1
  have hck1 : (setKV st0 (counterKey t a)
      (some ⟨.int 1, some (now + 1)⟩)).kv (counterKey t a) =
      some ⟨.int ((1 : Nat) : Int), some (now + 1)⟩ := by
    rw [setKV_self]
    norm_num
  have hbk1 : (setKV st0 (counterKey t a)
      (some ⟨.int 1, some (now + 1)⟩)).kv (blockedKeyOf t a) = none := by
    rw [setKV_other _ _ _ _ hbkck]
    exact hb
  have hmaxm : ((1 + m : Nat) : Int) ≤ maxFor rl t := by
    rw [hn]
    push_cast
    omega
  obtain ⟨r1, r2, r3⟩ := runAllow_replicate rl now a t m 1 _ hck1 hbk1 le_rfl hmaxm
  rw [List.replicate_succ]
  simp only [runAllow]
  rw [hstep]
  constructor
  · simp only [List.replicate_succ]
    rw [← r1]
  · have hbkF : ((runAllow rl (setKV st0 (counterKey t a) (some ⟨.int 1, some (now + 1)⟩))
        (List.replicate m ⟨a, t, now⟩)).2).kv (blockedKeyOf t a) = none := by
      rw [r3 _ hbkck]
      exact hbk1
    have hover : maxFor rl t < ((1 + m : Nat) : Int) + 1 := by
      rw [hn]
      push_cast
      omega
    have hfin := allow_step_over rl _ now a t ((1 + m : Nat) : Int) r2 hbkF
      (by push_cast; omega) hover
    rw [hfin]

/-- Claim C2: whenever the post-increment count returned by the store exceeds
the class limit, `Allow` sets the block marker at `blockedKey` with exactly
the class block duration, deletes the window counter at `key`, and returns
`(false, nil)`; immediately after the denial the marker's time-to-live is
positive and at most the configured duration, and the next increment for
the identity restarts the count at 1. -/
theorem c2_denial_blocks_and_resets
    (rl : RateLimiter) (st : RedisState) (now : Nat) (a : String) (t : Bool)
    (count : Int) (st1 : RedisState)
    (hnb : rsIsBlocked st now (blockedKeyOf t a) = false)
    (hinc : rsIncrement st now (counterKey t a) 1 = .ok (count, st1))
    (hover : maxFor rl t < count)
    (hdur : 1 ≤ durFor rl t) :
    Allow rl noFaults st now a t =
      ((false, none),
        setKV (rsBlock st1 now (blockedKeyOf t a) (durFor rl t)) (counterKey t a) none) ∧
    ((Allow rl noFaults st now a t).2).kv (blockedKeyOf t a) =
      some ⟨.str "blocked", some (now + (durFor rl t).toNat)⟩ ∧
    ((Allow rl noFaults st now a t).2).kv (counterKey t a) = none ∧
    0 < now + (durFor rl t).toNat - now ∧
    now + (durFor rl t).toNat - now ≤ (durFor rl t).toNat ∧
    (∀ t2, rsIncrement ((Allow rl noFaults st now a t).2) t2 (counterKey t a) 1 =
      .ok (1, setKV ((Allow rl noFaults st now a t).2) (counterKey t a)
        (some ⟨.int 1, some (t2 + 1)⟩))) := by
  have hbkck : blockedKeyOf t a ≠ counterKey t a :=
    fun h => counterKey_ne_blockedKeyOf t t a a h.symm
  have h1 : Allow rl noFaults st now a t =
      ((false, none),
        setKV (rsBlock st1 now (blockedKeyOf t a) (durFor rl t)) (counterKey t a) none) := by
    simp [Allow, stIsBlocked, noFaults, stIncrement, hinc, hover, stBlock, stResetIgnored,
      rsReset, hnb]
  have hkvb : ((Allow rl noFaults st now a t).2).kv (blockedKeyOf t a) =
      some ⟨.str "blocked", some (now + (durFor rl t).toNat)⟩ := by
    rw [h1]
    show (setKV (rsBlock st1 now (blockedKeyOf t a) (durFor rl t))
      (counterKey t a) none).kv (blockedKeyOf t a) = _
    rw [setKV_other _ _ _ _ hbkck, rsBlock, setKV_self, if_pos (by omega)]
  have hkvc : ((Allow rl noFaults st now a t).2).kv (counterKey t a) = none := by
    rw [h1]
    exact setKV_self _ _ _
  refine ⟨h1, hkvb, hkvc, by omega, by omega, ?_⟩
  intro t2
  rw [rsIncrement, incrResult, liveVal_none _ _ _ hkvc]

/-- Claim C3: for every identity whose block marker reads as "blocked",
`Allow` returns `(false, nil)` immediately and leaves the whole store state
unchanged: no `Increment`, `Block` or `Reset` effect, so the counter and the
marker's remaining duration are untouched. -/
theorem c3_blocked_short_circuits
    (rl : RateLimiter) (f : Faults) (st : RedisState) (now : Nat) (a : String) (t : Bool)
    (hf : f.isBlockedFail = none)
    (hb : liveVal st now (blockedKeyOf t a) = some (.str "blocked")) :
    Allow rl f st now a t = ((false, none), st) := by
  simp [Allow, stIsBlocked, hf, rsIsBlocked, hb]

/-- Claim C4: a failing `IsBlocked`, `Increment` or `Block` store call makes
`Allow` abort with a non-nil error that names the failed step and wraps the
underlying cause; the one exception is the counter reset after a successful
`Block`: a failing `Reset` is not escalated and `Allow` still returns
`(false, nil)` (with the counter left in place). -/
theorem c4_store_failure_propagates
    (rl : RateLimiter) (st : RedisState) (now : Nat) (a : String) (t : Bool) :
    (∀ f c, f.isBlockedFail = some c →
      (Allow rl f st now a t).1 =
        (false, some ("erro ao verificar se está bloqueado: " ++ c))) ∧
    (∀ f c, f.isBlockedFail = none → f.incrementFail = some c →
      rsIsBlocked st now (blockedKeyOf t a) = false →
      (Allow rl f st now a t).1 =
        (false, some ("erro ao incrementar contador: " ++ c))) ∧
    (∀ f c count st1, f.isBlockedFail = none → f.incrementFail = none →
      f.blockFail = some c →
      rsIsBlocked st now (blockedKeyOf t a) = false →
      rsIncrement st now (counterKey t a) 1 = .ok (count, st1) →
      maxFor rl t < count →
      (Allow rl f st now a t).1 = (false, some ("erro ao bloquear: " ++ c))) ∧
    (∀ f c count st1, f.isBlockedFail = none → f.incrementFail = none →
      f.blockFail = none → f.resetFail = some c →
      rsIsBlocked st now (blockedKeyOf t a) = false →
      rsIncrement st now (counterKey t a) 1 = .ok (count, st1) →
      maxFor rl t < count →
      Allow rl f st now a t =
        ((false, none), rsBlock st1 now (blockedKeyOf t a) (durFor rl t))) := by
  refine ⟨?_, ?_, ?_, ?_⟩
  · intro f c hf
    simp [Allow, stIsBlocked, hf]
  · intro f c hf1 hf2 hnb
    simp [Allow, stIsBlocked, stIncrement, hf1, hf2, hnb]
  · intro f c count st1 hf1 hf2 hf3 hnb hinc hover
    simp [Allow, stIsBlocked, stIncrement, stBlock, hf1, hf2, hf3, hnb, hinc, hover]
  · intro f c count st1 hf1 hf2 hf3 hf4 hnb hinc hover
    simp [Allow, stIsBlocked, stIncrement, stBlock, stResetIgnored, hf1, hf2, hf3, hf4,
      hnb, hinc, hover]

/-- Claim C10: whenever `Allow` returns a non-nil error, the boolean it
returns is `false`; no execution path yields `(true, err)` with a non-nil
error. -/
theorem c10_error_implies_denied
    (rl : RateLimiter) (f : Faults) (st : RedisState) (now : Nat) (a : String) (t : Bool)
    (h : (Allow rl f st now a t).1.2 ≠ none) :
    (Allow rl f st now a t).1.1 = false := by
  have aux : (Allow rl f st now a t).1.1 = true → (Allow rl f st now a t).1.2 = none := by
    simp only [Allow]
    split
    · simp
    · split
      · simp
      · split
        · simp
        · split
          · split <;> simp
          · simp
  cases hb : (Allow rl f st now a t).1.1
  · rfl
  · exact absurd (aux hb) h

theorem runAllow_filter_agree (rl : RateLimiter) (t : Bool) (a : String) :
    ∀ (l : List Req) (st1 st2 : RedisState),
      st1.kv (counterKey t a) = st2.kv (counterKey t a) →
      st1.kv (blockedKeyOf t a) = st2.kv (blockedKeyOf t a) →
      List.filter (fun p => p.1.isToken == t && p.1.identifier == a) (runAllow rl st1 l).1 =
        (runAllow rl st2
          (List.filter (fun r => r.isToken == t && r.identifier == a) l)).1 ∧
      ((runAllow rl st1 l).2).kv (counterKey t a) =
        ((runAllow rl st2
          (List.filter (fun r => r.isToken == t && r.identifier == a) l)).2).kv
            (counterKey t a) ∧
      ((runAllow rl st1 l).2).kv (blockedKeyOf t a) =
        ((runAllow rl st2
          (List.filter (fun r => r.isToken == t && r.identifier == a) l)).2).kv
            (blockedKeyOf t a) := by
  intro l
  induction l with
  | nil =>
    intro st1 st2 hc hb
    exact ⟨rfl, hc, hb⟩
  | cons r rs ih =>
    obtain ⟨ri, rt, rn⟩ := r
    intro st1 st2 hc hb
    by_cases hA : (rt == t && ri == a) = true
    · obtain ⟨hrt, hra⟩ : rt = t ∧ ri = a := by
        simpa [Bool.and_eq_true, beq_iff_eq] using hA
      subst hrt hra
      obtain ⟨ha1, ha2, ha3⟩ := allow_agree rl st1 st2 rn ri rt hc hb
      obtain ⟨ih1, ih2, ih3⟩ := ih (Allow rl noFaults st1 rn ri rt).2
        (Allow rl noFaults st2 rn ri rt).2 ha2 ha3
      simp only [runAllow, List.filter_cons]
      simp only [beq_self_eq_true, Bool.and_self, if_true]
      simp only [runAllow]
      exact ⟨by rw [ha1, ih1], ih2, ih3⟩
    · have hA' : (rt == t && ri == a) = false := by
        simpa using hA
      have hne : ¬ (rt = t ∧ ri = a) := by
        intro hcon
        simp [hcon.1, hcon.2] at hA'
      have hk1 : counterKey t a ≠ counterKey rt ri := by
        intro hcon
        exact hne ⟨((counterKey_eq_iff t rt a ri).mp hcon).1.symm,
          ((counterKey_eq_iff t rt a ri).mp hcon).2.symm⟩
      have hk2 : counterKey t a ≠ blockedKeyOf rt ri :=
        counterKey_ne_blockedKeyOf t rt a ri
      have hk3 : blockedKeyOf t a ≠ counterKey rt ri :=
        fun hcon => counterKey_ne_blockedKeyOf rt t ri a hcon.symm
      have hk4 : blockedKeyOf t a ≠ blockedKeyOf rt ri := by
        intro hcon
        exact hne ⟨((blockedKeyOf_eq_iff t rt a ri).mp hcon).1.symm,
          ((blockedKeyOf_eq_iff t rt a ri).mp hcon).2.symm⟩
      have hf1 : ((Allow rl noFaults st1 rn ri rt).2).kv (counterKey t a) =
          st1.kv (counterKey t a) :=
        allow_frame rl noFaults st1 rn ri rt _ hk1 hk2
      have hf2 : ((Allow rl noFaults st1 rn ri rt).2).kv (blockedKeyOf t a) =
          st1.kv (blockedKeyOf t a) :=
        allow_frame rl noFaults st1 rn ri rt _ hk3 hk4
      simp only [runAllow, List.filter_cons]
      simp only [hA', Bool.false_eq_true, if_false]
      exact ih (Allow rl noFaults st1 rn ri rt).2 st2 (hf1.trans hc) (hf2.trans hb)

/-- Claim C7: decisions for distinct identities are fully independent: the
token-class and IP-class keys for the same raw identifier are distinct,
counter keys never collide with block-marker keys, and for any interleaved
request list the results observed by one identity equal the results of
running that identity's requests alone from the same initial store. -/
theorem c7_identity_independence :
    (∀ s, counterKey true s ≠ counterKey false s) ∧
    (∀ s, blockedKeyOf true s ≠ blockedKeyOf false s) ∧
    (∀ (t u : Bool) (s v : String), counterKey t s ≠ blockedKeyOf u v) ∧
    (∀ (t : Bool) (a : String) (rl : RateLimiter) (st : RedisState) (l : List Req),
      List.filter (fun p => p.1.isToken == t && p.1.identifier == a) (runAllow rl st l).1 =
        (runAllow rl st
          (List.filter (fun r => r.isToken == t && r.identifier == a) l)).1) := by
  refine ⟨?_, ?_, ?_, ?_⟩
  · intro s hcon
    simpa using ((counterKey_eq_iff true false s s).mp hcon).1
  · intro s hcon
    simpa using ((blockedKeyOf_eq_iff true false s s).mp hcon).1
  · intro t u s v
    exact counterKey_ne_blockedKeyOf t u s v
  · intro t a rl st l
    exact (runAllow_filter_agree rl t a l st st rfl rfl).1

/-- Claim C5, counterexample: the code stores the window counter of
identifier "x" under "ip_x" (address class) and "token_x" (credential
class), not under "address_x" or "credential_x" as the claim states; the
claimed keys stay absent after a call. -/
theorem c5_key_scheme_counterexample :
    ((Allow ⟨⟨5, 10, 60, 120, "API_KEY"⟩⟩ noFaults emptyState 0 "x" false).2).kv "ip_x" =
      some ⟨.int 1, some 1⟩ ∧
    ((Allow ⟨⟨5, 10, 60, 120, "API_KEY"⟩⟩ noFaults emptyState 0 "x" false).2).kv
      "address_x" = none ∧
    ((Allow ⟨⟨5, 10, 60, 120, "API_KEY"⟩⟩ noFaults emptyState 0 "x" true).2).kv "token_x" =
      some ⟨.int 1, some 1⟩ ∧
    ((Allow ⟨⟨5, 10, 60, 120, "API_KEY"⟩⟩ noFaults emptyState 0 "x" true).2).kv
      "credential_x" = none ∧
    counterKey false "x" ≠ "address_x" ∧
    counterKey true "x" ≠ "credential_x" :=
  ⟨by decide, by decide, by decide, by decide, by decide, by decide⟩

/-- Claim C5, amended: the window-counter key is the class prefix "token_"
(credential class) or "ip_" (address class) concatenated with the
identifier, the block-marker key is "blocked_" concatenated with that
counter key, and these are the only keys any `Allow` call writes. -/
theorem c5_key_scheme_amended (rl : RateLimiter) (f : Faults) (st : RedisState)
    (now : Nat) (a : String) (t : Bool) :
    counterKey t a = (if t then "token_" else "ip_") ++ a ∧
    blockedKeyOf t a = "blocked_" ++ ((if t then "token_" else "ip_") ++ a) ∧
    ∀ q, q ≠ counterKey t a → q ≠ blockedKeyOf t a →
      ((Allow rl f st now a t).2).kv q = st.kv q :=
  ⟨rfl, rfl, fun q h1 h2 => allow_frame rl f st now a t q h1 h2⟩

/-- Witness for the amended claim C5 at a concrete unrelated key. -/
theorem c5_witness :
    ((Allow ⟨⟨5, 10, 60, 120, "API_KEY"⟩⟩ noFaults emptyState 0 "x" false).2).kv "other" =
      emptyState.kv "other" :=
  (c5_key_scheme_amended ⟨⟨5, 10, 60, 120, "API_KEY"⟩⟩ noFaults emptyState 0 "x" false).2.2
    "other" (by decide) (by decide)

/-- Claim C6, code behaviour at the failing input: `GetConfig` re-runs the
environment loader instead of returning the configuration supplied to
`NewRateLimiter` — for an engine built with header name "X-CUSTOM-KEY" in an
empty environment it returns the default configuration, which differs from
the stored one — and it panics when the `.env` file cannot be loaded. -/
theorem c6_getConfig_reloads_env :
    GetConfig true (fun _ => "") (NewRateLimiter ⟨5, 10, 60, 120, "X-CUSTOM-KEY"⟩) =
      .ok ⟨5, 10, 300, 300, "API_KEY"⟩ ∧
    (NewRateLimiter ⟨5, 10, 60, 120, "X-CUSTOM-KEY"⟩).limiterConfig ≠
      ⟨5, 10, 300, 300, "API_KEY"⟩ ∧
    GetConfig false (fun _ => "") (NewRateLimiter ⟨5, 10, 60, 120, "X-CUSTOM-KEY"⟩) =
      .panicked "Erro ao ler o arquivo de configurações" :=
  ⟨by decide, by decide, by decide⟩

/-- Claim C8, counterexample: with non-positive limits and durations in the
environment, `LoadConfigRateLimiter` succeeds (no error) and
`NewRateLimiter` produces an engine instance, so construction does not
reject the invalid configuration. -/
theorem c8_no_validation_counterexample :
    LoadConfigRateLimiter true
      (fun k => if k = "MAX_REQUESTS_PER_IP" then "-1"
        else if k = "BLOCK_DURATION_IP_SECONDS" then "-5"
        else if k = "MAX_REQUESTS_PER_TOKEN" then "0"
        else if k = "BLOCK_DURATION_TOKEN_SECONDS" then "0" else "") =
      .ok ⟨-1, 0, -5, 0, "API_KEY"⟩ ∧
    NewRateLimiter ⟨-1, 0, -5, 0, "API_KEY"⟩ = ⟨⟨-1, 0, -5, 0, "API_KEY"⟩⟩ :=
  ⟨by decide, rfl⟩

/-- Claim C8, amended: construction performs no positivity validation, so a
non-positive class limit produces an engine whose misconfiguration surfaces
mid-request: the very first request of a fresh identity is denied and
blocked. -/
theorem c8_amended_misconfig_surfaces_mid_request
    (rl : RateLimiter) (st : RedisState) (now : Nat) (a : String) (t : Bool)
    (hmax : maxFor rl t ≤ 0)
    (hc : st.kv (counterKey t a) = none)
    (hb : st.kv (blockedKeyOf t a) = none) :
    (Allow rl noFaults st now a t).1 = (false, none) ∧
    ((Allow rl noFaults st now a t).2).kv (blockedKeyOf t a) ≠ none := by
  have hbkck : blockedKeyOf t a ≠ counterKey t a :=
    fun h => counterKey_ne_blockedKeyOf t t a a h.symm
  have hover : maxFor rl t < 1 := by omega
  have h1 : Allow rl noFaults st now a t =
      ((false, none),
        setKV (rsBlock (setKV st (counterKey t a) (some ⟨.int 1, some (now + 1)⟩))
          now (blockedKeyOf t a) (durFor rl t)) (counterKey t a) none) := by
    simp [Allow, stIsBlocked, noFaults, stIncrement, rsIncrement, incrResult,
      liveVal_none _ _ _ hc, liveVal_none _ _ _ hb, rsIsBlocked, stBlock, stResetIgnored,
      rsReset, hover]
  refine ⟨by rw [h1], ?_⟩
  rw [h1]
  show (setKV (rsBlock _ now (blockedKeyOf t a) (durFor rl t))
    (counterKey t a) none).kv (blockedKeyOf t a) ≠ none
  rw [setKV_other _ _ _ _ hbkck, rsBlock, setKV_self]
  simp

/-- Witness for the amended claim C8 with limit -1 for the IP class. -/
theorem c8_witness :
    (Allow ⟨⟨-1, 0, -5, 0, "API_KEY"⟩⟩ noFaults emptyState 0 "a" false).1 = (false, none) ∧
    ((Allow ⟨⟨-1, 0, -5, 0, "API_KEY"⟩⟩ noFaults emptyState 0 "a" false).2).kv
      (blockedKeyOf false "a") ≠ none :=
  c8_amended_misconfig_surfaces_mid_request ⟨⟨-1, 0, -5, 0, "API_KEY"⟩⟩ emptyState 0 "a" false
    (by decide) rfl rfl

/-- Witness for claim C1 with limit 2 for the IP class. -/
theorem c1_witness :
    (runAllow ⟨⟨2, 10, 60, 120, "API_KEY"⟩⟩ emptyState (List.replicate 2 ⟨"a", false, 0⟩)).1 =
      List.replicate 2 (⟨"a", false, 0⟩, (true, none)) ∧
    (Allow ⟨⟨2, 10, 60, 120, "API_KEY"⟩⟩ noFaults
      (runAllow ⟨⟨2, 10, 60, 120, "API_KEY"⟩⟩ emptyState
        (List.replicate 2 ⟨"a", false, 0⟩)).2 0 "a" false).1 = (false, none) :=
  c1_first_n_allowed_then_denied ⟨⟨2, 10, 60, 120, "API_KEY"⟩⟩ emptyState 0 "a" false 2
    (by decide) (by decide) rfl rfl

/-- Witness for claim C2 with limit 0, so the first increment already
exceeds it. -/
theorem c2_witness :
    ((Allow ⟨⟨0, 10, 60, 120, "API_KEY"⟩⟩ noFaults emptyState 0 "a" false).2).kv
        (blockedKeyOf false "a") =
      some ⟨.str "blocked", some (0 + (durFor ⟨⟨0, 10, 60, 120, "API_KEY"⟩⟩ false).toNat)⟩ :=
  (c2_denial_blocks_and_resets ⟨⟨0, 10, 60, 120, "API_KEY"⟩⟩ emptyState 0 "a" false 1
    (setKV emptyState (counterKey false "a") (some ⟨.int 1, some (0 + 1)⟩))
    (by decide) rfl (by decide) (by decide)).2.1

/-- Witness for claim C3 on a store holding a live block marker. -/
theorem c3_witness :
    Allow ⟨⟨5, 10, 60, 120, "API_KEY"⟩⟩ noFaults
        (setKV emptyState (blockedKeyOf false "a") (some ⟨.str "blocked", some 5⟩))
        0 "a" false =
      ((false, none),
        setKV emptyState (blockedKeyOf false "a") (some ⟨.str "blocked", some 5⟩)) :=
  c3_blocked_short_circuits ⟨⟨5, 10, 60, 120, "API_KEY"⟩⟩ noFaults
    (setKV emptyState (blockedKeyOf false "a") (some ⟨.str "blocked", some 5⟩))
    0 "a" false rfl (by decide)

/-- Witness for claim C4 instantiating all four failure scenarios. -/
theorem c4_witness :
    (Allow ⟨⟨5, 10, 60, 120, "API_KEY"⟩⟩ ⟨some "down", none, none, none⟩
        emptyState 0 "a" false).1 =
      (false, some ("erro ao verificar se está bloqueado: " ++ "down")) ∧
    (Allow ⟨⟨5, 10, 60, 120, "API_KEY"⟩⟩ ⟨none, some "down", none, none⟩
        emptyState 0 "a" false).1 =
      (false, some ("erro ao incrementar contador: " ++ "down")) ∧
    (Allow ⟨⟨0, 10, 60, 120, "API_KEY"⟩⟩ ⟨none, none, some "down", none⟩
        emptyState 0 "a" false).1 =
      (false, some ("erro ao bloquear: " ++ "down")) ∧
    Allow ⟨⟨0, 10, 60, 120, "API_KEY"⟩⟩ ⟨none, none, none, some "down"⟩
        emptyState 0 "a" false =
      ((false, none),
        rsBlock (setKV emptyState (counterKey false "a") (some ⟨.int 1, some (0 + 1)⟩)) 0
          (blockedKeyOf false "a") (durFor ⟨⟨0, 10, 60, 120, "API_KEY"⟩⟩ false)) :=
  ⟨(c4_store_failure_propagates ⟨⟨5, 10, 60, 120, "API_KEY"⟩⟩ emptyState 0 "a" false).1
      ⟨some "down", none, none, none⟩ "down" rfl,
    (c4_store_failure_propagates ⟨⟨5, 10, 60, 120, "API_KEY"⟩⟩ emptyState 0 "a" false).2.1
      ⟨none, some "down", none, none⟩ "down" rfl rfl (by decide),
    (c4_store_failure_propagates ⟨⟨0, 10, 60, 120, "API_KEY"⟩⟩ emptyState 0 "a" false).2.2.1
      ⟨none, none, some "down", none⟩ "down" 1
      (setKV emptyState (counterKey false "a") (some ⟨.int 1, some (0 + 1)⟩))
      rfl rfl rfl (by decide) rfl (by decide),
    (c4_store_failure_propagates ⟨⟨0, 10, 60, 120, "API_KEY"⟩⟩ emptyState 0 "a" false).2.2.2
      ⟨none, none, none, some "down"⟩ "down" 1
      (setKV emptyState (counterKey false "a") (some ⟨.int 1, some (0 + 1)⟩))
      rfl rfl rfl rfl (by decide) rfl (by decide)⟩

/-- Witness for claim C10 under a failing blocked-check. -/
theorem c10_witness :
    (Allow ⟨⟨5, 10, 60, 120, "API_KEY"⟩⟩ ⟨some "down", none, none, none⟩
      emptyState 0 "a" false).1.1 = false :=
  c10_error_implies_denied ⟨⟨5, 10, 60, 120, "API_KEY"⟩⟩ ⟨some "down", none, none, none⟩
    emptyState 0 "a" false (by decide)

end RateLimiterProof
